import Mathlib

/-!
Shallow embedding of the seat-hold lease subsystem (Redis-backed lock module
and the bulk geo-unlock route handler) together with proofs of the claimed
properties.

Modelling conventions:
* The Redis key space is split by its four disjoint key prefixes
  (`hold:seat:`, `booking:`, `seat:status:`, `geo:unlock:`) into four
  point-wise maps `String → Option _`.
* A stored hold value is a raw JSON string in the source; here it is the
  outcome of `JSON.parse` on that string: `corrupt` (parse throws, or the
  parsed value is the JSON literal null so that the later property access
  throws inside the same try block; `isEmpty` records whether the raw string
  is empty, i.e. JavaScript-falsy), `obj` (an object carrying the four hold
  fields), or `junk` (some other JSON value, with its JavaScript truthiness).
* A stored booking value is either the raw seat id written by `createHold`
  (`legacy`, not itself valid JSON) or the JSON seat-id array written by
  `createMultipleHolds` (`list`).
* `Date.now()`.. the current time in milliseconds is passed explicitly as
  `now : Nat`; geo functions use epoch seconds, passed the same way.
* Store errors thrown by a per-seat `redis.set` inside `createMultipleHolds`
  are modelled by a fault oracle `faults : Nat → Bool` giving, per attempt
  index, whether that `SET NX` call throws.
* `SET` with `EX ttl` records the ttl argument in the entry; `SET` without
  expiry records `none`.
-/

namespace HackWinter

/-- TTL for seat holds, seconds (`HOLD_TTL_SECONDS` in the source). -/
def HOLD_TTL_SECONDS : Nat := 120

/-- A well-formed hold record as written by `createHold` and
`createMultipleHolds`: `JSON.stringify({ userId, bookingId, sectionId, expiresAt })`. -/
structure Hold where
  userId : String
  bookingId : String
  sectionId : String
  expiresAt : Nat
deriving DecidableEq, Repr

/-- Result of `JSON.parse` on the raw string stored under a `hold:seat:` key. -/
inductive HoldPayload where
  | corrupt (isEmpty : Bool)
  | obj (h : Hold)
  | junk (truthy : Bool)
deriving DecidableEq, Repr

/-- A `hold:seat:` store entry: payload plus the `EX` ttl it was written with. -/
structure HoldEntry where
  payload : HoldPayload
  ttl : Option Nat
deriving DecidableEq, Repr

/-- Value stored under a `booking:` key: raw seat id (written by `createHold`)
or JSON array of seat ids (written by `createMultipleHolds`). -/
inductive BookingPayload where
  | legacy (seatId : String)
  | list (seatIds : List String)
deriving DecidableEq, Repr

/-- A `booking:` store entry: payload plus the `EX` ttl it was written with. -/
structure BookingEntry where
  payload : BookingPayload
  ttl : Option Nat
deriving DecidableEq, Repr

/-- The shared Redis state, split by the four disjoint key prefixes. -/
@[ext] structure RedisState where
  holds : String → Option HoldEntry
  bookings : String → Option BookingEntry
  status : String → Option String
  geo : String → Option Int

/-- Point update of one key of a map. -/
def upd {α : Type} (f : String → Option α) (k : String) (v : Option α) :
    String → Option α :=
  fun x => if x = k then v else f x

/-- The defensive expiry re-check in `getHold`:
`hold.expiresAt && hold.expiresAt < Date.now()` (a zero `expiresAt` is
JavaScript-falsy and skips the check). -/
def Hold.expiredAt (h : Hold) (now : Nat) : Bool :=
  h.expiresAt != 0 && decide (h.expiresAt < now)

/-- What `getHold` hands back to its callers: null, a parsed hold object, or a
parsed non-hold JSON value returned as-is (with its truthiness). -/
inductive GetHoldResult where
  | nullv
  | hold (h : Hold)
  | junkVal (truthy : Bool)
deriving DecidableEq, Repr

/-- Model of `getHold(seatId)`: read the `hold:seat:` key, parse, defensively delete a
record whose nonzero `expiresAt` lies in the past, swallow parse errors. -/
def getHold (st : RedisState) (now : Nat) (seatId : String) :
    GetHoldResult × RedisState :=
  match st.holds seatId with
  | none => (.nullv, st)
  | some e =>
    match e.payload with
    | .corrupt _ => (.nullv, st)
    | .junk t => (.junkVal t, st)
    | .obj h =>
      if h.expiredAt now then
        (.nullv, { st with holds := upd st.holds seatId none })
      else (.hold h, st)

/-- Model of `createHold(seatId, {userId, bookingId, sectionId})`: `SET NX EX 120` on the
hold key; on success also write the single-seat booking index entry. -/
def createHold (st : RedisState) (now : Nat)
    (seatId userId bookingId sectionId : String) : Bool × RedisState :=
  let expiresAt := now + HOLD_TTL_SECONDS * 1000
  match st.holds seatId with
  | some _ => (false, st)
  | none =>
    let entry : HoldEntry :=
      ⟨.obj ⟨userId, bookingId, sectionId, expiresAt⟩, some HOLD_TTL_SECONDS⟩
    let bentry : BookingEntry := ⟨.legacy seatId, some HOLD_TTL_SECONDS⟩
    let st1 : RedisState := { st with holds := upd st.holds seatId (some entry) }
    let st2 : RedisState :=
      { st1 with bookings := upd st1.bookings bookingId (some bentry) }
    (true, st2)

/-- One element of the seat list returned by `getHoldByBookingId`; fields read
off a non-hold JSON value are JavaScript `undefined`, i.e. `none`. -/
structure SeatRecord where
  seatId : String
  userId : Option String
  sectionId : Option String
  bookingId : Option String
deriving DecidableEq, Repr

/-- Return value of `getHoldByBookingId`: null, a flat single-seat record, or a
booking-grouped record. -/
inductive BookingLookup where
  | nullv
  | single (r : SeatRecord)
  | grouped (bookingId : String) (userId : Option String) (seats : List SeatRecord)
deriving DecidableEq, Repr

/-- The `if (hold) seats.push({...})` step of the `getHoldByBookingId` loop. -/
def holdSeatRecord (seatId : String) : GetHoldResult → Option SeatRecord
  | .nullv => none
  | .hold h => some ⟨seatId, some h.userId, some h.sectionId, some h.bookingId⟩
  | .junkVal t => if t then some ⟨seatId, none, none, none⟩ else none

/-- The seat-collection loop of `getHoldByBookingId` over the decoded seat-id
array, threading the store state through each `getHold`. -/
def collectBookingSeats (st : RedisState) (now : Nat) :
    List String → List SeatRecord × RedisState
  | [] => ([], st)
  | seatId :: rest =>
    let p := getHold st now seatId
    let q := collectBookingSeats p.2 now rest
    match holdSeatRecord seatId p.1 with
    | some r => (r :: q.1, q.2)
    | none => q

/-- Model of `getHoldByBookingId(bookingId)`: decode the booking-index value (legacy raw
seat id, for which `JSON.parse` throws into the fallback branch, or current
seat-id list), resolve each referenced hold, and shape the answer by the number
of live seats. An empty legacy value is JavaScript-falsy and returns null
before any parse. -/
def getHoldByBookingId (st : RedisState) (now : Nat) (bookingId : String) :
    BookingLookup × RedisState :=
  match st.bookings bookingId with
  | none => (.nullv, st)
  | some e =>
    match e.payload with
    | .legacy s =>
      if s = "" then (.nullv, st)
      else
        let p := getHold st now s
        match p.1 with
        | .hold h => (.single ⟨s, some h.userId, some h.sectionId, some h.bookingId⟩, p.2)
        | .junkVal t =>
          if t then (.single ⟨s, none, none, none⟩, p.2) else (.nullv, p.2)
        | .nullv => (.nullv, p.2)
    | .list ids =>
      let q := collectBookingSeats st now ids
      match q.1 with
      | [] => (.nullv, q.2)
      | [r] => (.single r, q.2)
      | r :: _ :: _ => (.grouped bookingId r.userId q.1, q.2)

/-- Model of `releaseHold(seatId, userId)`: read through `getHold`; only a hold object
with matching `userId` releases, deleting the hold key and the booking-index
key named by the hold. -/
def releaseHold (st : RedisState) (now : Nat) (seatId userId : String) :
    Bool × RedisState :=
  let p := getHold st now seatId
  match p.1 with
  | .hold h =>
    if h.userId = userId then
      (true, { p.2 with holds := upd p.2.holds seatId none,
                        bookings := upd p.2.bookings h.bookingId none })
    else (false, p.2)
  | _ => (false, p.2)

/-- Model of `isHeld(seatId)`: `Boolean(getHold(seatId))`. -/
def isHeld (st : RedisState) (now : Nat) (seatId : String) : Bool × RedisState :=
  let p := getHold st now seatId
  (match p.1 with
   | .nullv => false
   | .hold _ => true
   | .junkVal t => t, p.2)

/-- Model of `setSeatBooked(seatId)`: write the permanent `seat:status:` marker, no ttl. -/
def setSeatBooked (st : RedisState) (seatId : String) : RedisState :=
  { st with status := upd st.status seatId (some "BOOKED") }

/-- Model of `getRedisSeatStatus(seatId)` (resolveOne): permanent `BOOKED` marker first,
then the hold read through `getHold` (JavaScript truthiness of its result). -/
def getRedisSeatStatus (st : RedisState) (now : Nat) (seatId : String) :
    Option String × RedisState :=
  if st.status seatId = some "BOOKED" then (some "BOOKED", st)
  else
    let p := getHold st now seatId
    match p.1 with
    | .hold _ => (some "HOLD", p.2)
    | .junkVal t => (if t then some "HOLD" else none, p.2)
    | .nullv => (none, p.2)

/-- JavaScript truthiness of the raw string stored under a hold key, as the
pipelined batch read sees it: only the empty string is falsy. -/
def HoldPayload.rawTruthy : HoldPayload → Bool
  | .corrupt isEmpty => !isEmpty
  | .obj _ => true
  | .junk _ => true

/-- Per-seat decision of the batched `getAllSeatStatuses` loop: permanent
marker first, else any truthy raw hold value counts as HOLD. -/
def batchStatus (st : RedisState) (seatId : String) : Option String :=
  if st.status seatId = some "BOOKED" then some "BOOKED"
  else
    match st.holds seatId with
    | some e => if e.payload.rawTruthy then some "HOLD" else none
    | none => none

/-- Insertion-ordered `Map.set`: overwrite the first binding of the key in
place, else append. -/
def mapSet : List (String × String) → String → String → List (String × String)
  | [], k, v => [(k, v)]
  | p :: rest, k, v => if p.1 = k then (k, v) :: rest else p :: mapSet rest k v

/-- Lookup in the result map, i.e. `Map.get`. -/
def lookupStatus (m : List (String × String)) (k : String) : Option String :=
  (m.find? (fun p => p.1 = k)).map (fun p => p.2)

/-- Model of `getAllSeatStatuses(seatIds)` (resolveMany): two pipelined batch reads
(permanent markers, then raw hold values), merged per seat; seats resolving to
nothing are not inserted into the result map. The pipeline only reads, so the
store state is unchanged. -/
def getAllSeatStatuses (st : RedisState) (seatIds : List String) :
    List (String × String) :=
  seatIds.foldl
    (fun acc id =>
      match batchStatus st id with
      | some s => mapSet acc id s
      | none => acc) []

/-- One requested seat of `createMultipleHolds`. -/
structure SeatSpec where
  seatId : String
  sectionId : String
deriving DecidableEq, Repr

/-- Outcome of `createMultipleHolds`: a returned boolean, or a rethrown store
error. -/
inductive CMHResult where
  | ok (b : Bool)
  | storeError
deriving DecidableEq, Repr

/-- The rollback loop: delete every hold acquired so far. -/
def rollbackHolds (st : RedisState) (locked : List String) : RedisState :=
  locked.foldl (fun s sid => { s with holds := upd s.holds sid none }) st

/-- Full compensation of `createMultipleHolds`: delete the acquired holds, then
unconditionally delete the `booking:` key of this bookingId. -/
def cmhRollback (st : RedisState) (locked : List String) (bookingId : String) :
    RedisState :=
  let st1 := rollbackHolds st locked
  { st1 with bookings := upd st1.bookings bookingId none }

/-- The acquisition loop of `createMultipleHolds`: per seat, a `SET NX EX 120`
that may throw (fault oracle, by attempt index) or be denied (key present);
either failure triggers the compensation and ends the call. After the last
seat the booking index is written with the full locked list and the same ttl. -/
def cmhLoop (now : Nat) (faults : Nat → Bool) (userId bookingId : String)
    (expiresAt : Nat) :
    RedisState → Nat → List String → List SeatSpec → CMHResult × RedisState
  | st, _, locked, [] =>
    let bentry : BookingEntry := ⟨.list locked, some HOLD_TTL_SECONDS⟩
    (.ok true, { st with bookings := upd st.bookings bookingId (some bentry) })
  | st, i, locked, seat :: rest =>
    if faults i then (.storeError, cmhRollback st locked bookingId)
    else
      match st.holds seat.seatId with
      | some _ => (.ok false, cmhRollback st locked bookingId)
      | none =>
        let entry : HoldEntry :=
          ⟨.obj ⟨userId, bookingId, seat.sectionId, expiresAt⟩,
           some HOLD_TTL_SECONDS⟩
        let st1 : RedisState :=
          { st with holds := upd st.holds seat.seatId (some entry) }
        cmhLoop now faults userId bookingId expiresAt st1 (i + 1)
          (locked ++ [seat.seatId]) rest

/-- Model of `createMultipleHolds(seats, userId, bookingId)`. -/
def createMultipleHolds (st : RedisState) (now : Nat) (faults : Nat → Bool)
    (seats : List SeatSpec) (userId bookingId : String) :
    CMHResult × RedisState :=
  cmhLoop now faults userId bookingId (now + HOLD_TTL_SECONDS * 1000) st 0 [] seats

/-- JavaScript `.toLowerCase()` on a key (executable character-wise map; the
built-in `String.toLower` is the same map but its recursor does not reduce in
the kernel). -/
def lowerStr (s : String) : String :=
  ⟨s.data.map Char.toLower⟩

/-- Model of `getGeoUnlockTime(city)`: read `geo:unlock:` under the lower-cased key.
Stored values are the decimal rendering of the integer written by
`setGeoUnlockTime`, kept here directly as that integer. -/
def getGeoUnlockTime (st : RedisState) (city : String) : Option Int :=
  st.geo (lowerStr city)

/-- Return shape of `isGeoUnlocked`. -/
structure GeoStatus where
  isUnlocked : Bool
  unlocksAt : Option Int
  remainingSeconds : Int
deriving DecidableEq, Repr

/-- Model of `isGeoUnlocked(city)`: an absent entry is fail-open; a stored value of 0 is
JavaScript-falsy and takes the same fail-open branch; otherwise compare
epoch-seconds `now` against the stored time. -/
def isGeoUnlocked (st : RedisState) (now : Nat) (city : String) : GeoStatus :=
  match getGeoUnlockTime st city with
  | none => ⟨true, none, 0⟩
  | some t =>
    if t = 0 then ⟨true, none, 0⟩
    else ⟨decide ((t : Int) ≤ (now : Int)), some t, max 0 (t - (now : Int))⟩

/-- Range inside which `new Date(ms).toISOString()` does not throw. -/
def isoInRange (ms : Int) : Bool :=
  decide (-8640000000000000 ≤ ms) && decide (ms ≤ 8640000000000000)

/-- Model of `setGeoUnlockTime(city, ts)`: write the lower-cased key unconditionally, no
ttl; the success log line then renders `new Date(ts * 1000).toISOString()`,
which throws a RangeError — after the write — when `ts * 1000` is outside the
representable date range. The boolean is false when that throw happens. -/
def setGeoUnlockTime (st : RedisState) (city : String) (ts : Int) :
    Bool × RedisState :=
  let st1 : RedisState := { st with geo := upd st.geo (lowerStr city) (some ts) }
  (isoInRange (ts * 1000), st1)

/-- One body value of the bulk `PUT /api/geo-unlock` route: a string (with the
epoch milliseconds it parses to as a date, when it does parse) or a raw
number. -/
inductive UnlockValue where
  | iso (raw : String) (ms : Option Int)
  | num (n : Int)
deriving DecidableEq, Repr

/-- The raw body value, as echoed in the error response of the PUT route. -/
def UnlockValue.rawDescr : UnlockValue → String ⊕ Int
  | .iso raw _ => .inl raw
  | .num n => .inr n

/-- Outcome of the bulk PUT route: the 200 body's per-city results, or the 400
`INVALID_TIME_FORMAT` response naming the offending city and raw value. -/
inductive PutOutcome where
  | ok (cities : List (String × Int))
  | invalidTime (city : String) (value : String ⊕ Int)
deriving DecidableEq, Repr

/-- The entry loop of the PUT route: an unparseable string throws before any
write; otherwise `setGeoUnlockTime` writes and its post-write log may throw;
the per-city catch turns either throw into the 400 response and stops. -/
def putLoop : RedisState → List (String × Int) → List (String × UnlockValue) →
    PutOutcome × RedisState
  | st, acc, [] => (.ok acc, st)
  | st, acc, (city, v) :: rest =>
    match v with
    | .iso raw none => (.invalidTime city (.inl raw), st)
    | .iso raw (some ms) =>
      let ts := Int.fdiv ms 1000
      let p := setGeoUnlockTime st city ts
      if p.1 then putLoop p.2 (acc ++ [(city, ts)]) rest
      else (.invalidTime city (.inl raw), p.2)
    | .num n =>
      let p := setGeoUnlockTime st city n
      if p.1 then putLoop p.2 (acc ++ [(city, n)]) rest
      else (.invalidTime city (.inr n), p.2)

/-- Model of `PUT /api/geo-unlock` with the body's city → value entries. -/
def putGeoUnlock (st : RedisState) (entries : List (String × UnlockValue)) :
    PutOutcome × RedisState :=
  putLoop st [] entries

/-- A live hold: a present, well-formed hold record that the defensive expiry
check does not reject. -/
def HoldPayload.isLiveAt (p : HoldPayload) (now : Nat) : Bool :=
  match p with
  | .obj h => !h.expiredAt now
  | _ => false

/-- A live hold exists for this seat. -/
def liveHold (st : RedisState) (now : Nat) (seatId : String) : Bool :=
  match st.holds seatId with
  | some e => e.payload.isLiveAt now
  | none => false

/-- The seat ids referenced by a booking-index value: one for the legacy raw
seat id, the stored list for the current encoding. -/
def decodeBookingRefs : BookingPayload → List String
  | .legacy s => [s]
  | .list ids => ids

/-- The seat record `getHoldByBookingId` keeps for a referenced seat id whose
well-formed hold is still live; `none` when the hold has vanished or is
expired. -/
def liveSeatRecord (st : RedisState) (now : Nat) (id : String) :
    Option SeatRecord :=
  match st.holds id with
  | some ⟨.obj h, _⟩ =>
    if h.expiredAt now then none
    else some ⟨id, some h.userId, some h.sectionId, some h.bookingId⟩
  | _ => none

/-- States reachable from `st` by the defensive deletes of `getHold`: every
hold key is unchanged, or has been deleted while it contributed no live seat
record anyway. -/
def deadPreserved (now : Nat) (st st2 : RedisState) : Prop :=
  ∀ x, st2.holds x = st.holds x ∨
    (st2.holds x = none ∧ liveSeatRecord st now x = none)

/-- Well-formed hold store: every present hold payload is a hold object, as
all writes of this module produce. -/
def holdsWellFormed (st : RedisState) : Prop :=
  ∀ x e, st.holds x = some e → ∃ h, e.payload = HoldPayload.obj h

/-- The epoch-seconds value a PUT body entry converts to: `Math.floor(ms/1000)`
for a string that parses as a date, the raw number as-is, nothing for an
unparseable string. -/
def entryConverts : UnlockValue → Option Int
  | .iso _ none => none
  | .iso _ (some ms) => some (Int.fdiv ms 1000)
  | .num n => some n

/-- Whether processing this PUT body entry completes without throwing:
the string must parse and the written timestamp must survive the post-write
`toISOString` rendering. -/
def entryWriteOk (v : UnlockValue) : Bool :=
  match entryConverts v with
  | none => false
  | some ts => isoInRange (ts * 1000)

/-- The geo writes performed by a run of successfully processed PUT body
entries. -/
def applyPutEntries (st : RedisState) (pre : List (String × UnlockValue)) :
    RedisState :=
  pre.foldl (fun s cv =>
    match entryConverts cv.2 with
    | some ts => { s with geo := upd s.geo (lowerStr cv.1) (some ts) }
    | none => s) st

theorem upd_self {α : Type} (f : String → Option α) (k : String) (v : Option α) :
    upd f k v k = v := by
  simp [upd]

theorem upd_ne {α : Type} (f : String → Option α) (k x : String) (v : Option α)
    (h : x ≠ k) : upd f k v x = f x := by
  simp [upd, h]

theorem rollbackHolds_nil (st : RedisState) : rollbackHolds st [] = st := rfl

theorem rollbackHolds_cons (st : RedisState) (a : String) (t : List String) :
    rollbackHolds st (a :: t) =
      rollbackHolds { st with holds := upd st.holds a none } t := rfl

theorem rollbackHolds_bookings (locked : List String) (st : RedisState) :
    (rollbackHolds st locked).bookings = st.bookings := by
  induction locked generalizing st with
  | nil => rfl
  | cons a t ih => rw [rollbackHolds_cons, ih]

theorem rollbackHolds_status (locked : List String) (st : RedisState) :
    (rollbackHolds st locked).status = st.status := by
  induction locked generalizing st with
  | nil => rfl
  | cons a t ih => rw [rollbackHolds_cons, ih]

theorem rollbackHolds_geo (locked : List String) (st : RedisState) :
    (rollbackHolds st locked).geo = st.geo := by
  induction locked generalizing st with
  | nil => rfl
  | cons a t ih => rw [rollbackHolds_cons, ih]

theorem rollbackHolds_holds_of_not_mem (locked : List String) (st : RedisState)
    (x : String) (hx : x ∉ locked) :
    (rollbackHolds st locked).holds x = st.holds x := by
  induction locked generalizing st with
  | nil => rfl
  | cons a t ih =>
    simp only [List.mem_cons, not_or] at hx
    rw [rollbackHolds_cons, ih _ hx.2]
    exact upd_ne _ _ _ _ hx.1

theorem rollbackHolds_holds_of_mem (locked : List String) (st : RedisState)
    (x : String) (hx : x ∈ locked) :
    (rollbackHolds st locked).holds x = none := by
  induction locked generalizing st with
  | nil => cases hx
  | cons a t ih =>
    rw [rollbackHolds_cons]
    by_cases hxt : x ∈ t
    · exact ih _ hxt
    · have hxa : x = a := by
        rcases List.mem_cons.mp hx with h | h
        · exact h
        · exact absurd h hxt
      rw [rollbackHolds_holds_of_not_mem t _ x hxt]
      subst hxa
      exact upd_self _ _ _

theorem cmhRollback_spec (st : RedisState) (locked : List String) (b : String) :
    (cmhRollback st locked b).holds =
      (fun x => if x ∈ locked then none else st.holds x) ∧
    (cmhRollback st locked b).bookings = upd st.bookings b none ∧
    (cmhRollback st locked b).status = st.status ∧
    (cmhRollback st locked b).geo = st.geo := by
  refine ⟨funext fun x => ?_, ?_, ?_, ?_⟩
  · by_cases hx : x ∈ locked
    · simp only [cmhRollback, hx, if_true]
      exact rollbackHolds_holds_of_mem _ _ _ hx
    · simp only [cmhRollback, hx, if_false]
      exact rollbackHolds_holds_of_not_mem _ _ _ hx
  · show upd (rollbackHolds st locked).bookings b none = upd st.bookings b none
    rw [rollbackHolds_bookings]
  · exact rollbackHolds_status _ _
  · exact rollbackHolds_geo _ _

theorem cmhLoop_nil (now : Nat) (faults : Nat → Bool) (u b : String) (ea : Nat)
    (st : RedisState) (i : Nat) (locked : List String) :
    cmhLoop now faults u b ea st i locked [] =
      (.ok true,
       { st with bookings := (upd st.bookings b
           (some ⟨.list locked, some HOLD_TTL_SECONDS⟩)) }) := rfl

theorem cmhLoop_cons_fault (now : Nat) (faults : Nat → Bool) (u b : String)
    (ea : Nat) (st : RedisState) (i : Nat) (locked : List String)
    (seat : SeatSpec) (rest : List SeatSpec) (hf : faults i = true) :
    cmhLoop now faults u b ea st i locked (seat :: rest) =
      (.storeError, cmhRollback st locked b) := by
  simp [cmhLoop, hf]

theorem cmhLoop_cons_denied (now : Nat) (faults : Nat → Bool) (u b : String)
    (ea : Nat) (st : RedisState) (i : Nat) (locked : List String)
    (seat : SeatSpec) (rest : List SeatSpec) (e : HoldEntry)
    (hf : faults i = false) (hh : st.holds seat.seatId = some e) :
    cmhLoop now faults u b ea st i locked (seat :: rest) =
      (.ok false, cmhRollback st locked b) := by
  simp [cmhLoop, hf, hh]

theorem cmhLoop_cons_acquired (now : Nat) (faults : Nat → Bool) (u b : String)
    (ea : Nat) (st : RedisState) (i : Nat) (locked : List String)
    (seat : SeatSpec) (rest : List SeatSpec)
    (hf : faults i = false) (hh : st.holds seat.seatId = none) :
    cmhLoop now faults u b ea st i locked (seat :: rest) =
      cmhLoop now faults u b ea
        { st with holds := (upd st.holds seat.seatId
            (some ⟨.obj ⟨u, b, seat.sectionId, ea⟩, some HOLD_TTL_SECONDS⟩)) }
        (i + 1) (locked ++ [seat.seatId]) rest := by
  simp [cmhLoop, hf, hh]

theorem cmhLoop_fail (now : Nat) (faults : Nat → Bool) (u b : String) (ea : Nat) :
    ∀ (seats : List SeatSpec) (st : RedisState) (i : Nat) (locked : List String),
      (cmhLoop now faults u b ea st i locked seats).1 ≠ .ok true →
      (cmhLoop now faults u b ea st i locked seats).2.holds =
        (fun x => if x ∈ locked then none else st.holds x) ∧
      (cmhLoop now faults u b ea st i locked seats).2.bookings =
        upd st.bookings b none ∧
      (cmhLoop now faults u b ea st i locked seats).2.status = st.status ∧
      (cmhLoop now faults u b ea st i locked seats).2.geo = st.geo := by
  intro seats
  induction seats with
  | nil =>
    intro st i locked hfail
    exact absurd rfl hfail
  | cons seat rest ih =>
    intro st i locked hfail
    cases hf : faults i with
    | true =>
      rw [cmhLoop_cons_fault now faults u b ea st i locked seat rest hf]
      exact cmhRollback_spec st locked b
    | false =>
      cases hhold : st.holds seat.seatId with
      | some e =>
        rw [cmhLoop_cons_denied now faults u b ea st i locked seat rest e hf hhold]
        exact cmhRollback_spec st locked b
      | none =>
        rw [cmhLoop_cons_acquired now faults u b ea st i locked seat rest hf hhold] at hfail ⊢
        have key := ih _ (i + 1) (locked ++ [seat.seatId]) hfail
        refine ⟨funext fun x => ?_, ?_, key.2.2.1, key.2.2.2⟩
        · rw [congrFun key.1 x]
          by_cases hxl : x ∈ locked
          · simp [hxl]
          · by_cases hxs : x = seat.seatId
            · subst hxs
              simp [hxl, hhold, upd_self]
            · simp only [List.mem_append, List.mem_singleton, hxl, hxs,
                or_self, if_false]
              exact upd_ne _ _ _ _ hxs
        · exact key.2.1

theorem cmhLoop_success (now : Nat) (faults : Nat → Bool) (u b : String)
    (ea : Nat) :
    ∀ (seats : List SeatSpec) (st : RedisState) (i : Nat) (locked : List String),
      (cmhLoop now faults u b ea st i locked seats).1 = .ok true →
      (∀ s ∈ seats, st.holds s.seatId = none) ∧
      (∀ s ∈ seats, (cmhLoop now faults u b ea st i locked seats).2.holds s.seatId =
        some ⟨.obj ⟨u, b, s.sectionId, ea⟩, some HOLD_TTL_SECONDS⟩) ∧
      (∀ x, (∀ s ∈ seats, x ≠ s.seatId) →
        (cmhLoop now faults u b ea st i locked seats).2.holds x = st.holds x) ∧
      (cmhLoop now faults u b ea st i locked seats).2.bookings =
        upd st.bookings b
          (some ⟨.list (locked ++ seats.map SeatSpec.seatId), some HOLD_TTL_SECONDS⟩) ∧
      (cmhLoop now faults u b ea st i locked seats).2.status = st.status ∧
      (cmhLoop now faults u b ea st i locked seats).2.geo = st.geo := by
  intro seats
  induction seats with
  | nil =>
    intro st i locked _
    rw [cmhLoop_nil]
    refine ⟨by simp, by simp, fun x _ => rfl, ?_, rfl, rfl⟩
    simp
  | cons seat rest ih =>
    intro st i locked hok
    cases hf : faults i with
    | true =>
      rw [cmhLoop_cons_fault now faults u b ea st i locked seat rest hf] at hok
      exact absurd hok (by simp)
    | false =>
      cases hhold : st.holds seat.seatId with
      | some e =>
        rw [cmhLoop_cons_denied now faults u b ea st i locked seat rest e hf hhold] at hok
        exact absurd hok (by simp)
      | none =>
        rw [cmhLoop_cons_acquired now faults u b ea st i locked seat rest hf hhold] at hok ⊢
        have key := ih _ (i + 1) (locked ++ [seat.seatId]) hok
        have hne : ∀ s ∈ rest, seat.seatId ≠ s.seatId := by
          intro s hs heq
          have h1 : upd st.holds seat.seatId
              (some ⟨.obj ⟨u, b, seat.sectionId, ea⟩, some HOLD_TTL_SECONDS⟩)
              s.seatId = none := key.1 s hs
          rw [← heq, upd_self] at h1
          exact Option.noConfusion h1
        constructor
        · intro s hs
          rcases List.mem_cons.mp hs with h | h
          · subst h; exact hhold
          · have h1 : upd st.holds seat.seatId
                (some ⟨.obj ⟨u, b, seat.sectionId, ea⟩, some HOLD_TTL_SECONDS⟩)
                s.seatId = none := key.1 s h
            by_cases hix : s.seatId = seat.seatId
            · rw [hix, upd_self] at h1
              exact Option.noConfusion h1
            · rwa [upd_ne _ _ _ _ hix] at h1
        constructor
        · intro s hs
          rcases List.mem_cons.mp hs with h | h
          · rw [h]
            rw [key.2.2.1 seat.seatId hne]
            exact upd_self _ _ _
          · exact key.2.1 s h
        constructor
        · intro x hx
          have hxs : x ≠ seat.seatId := hx seat (List.mem_cons_self _ _)
          rw [key.2.2.1 x (fun s hs => hx s (List.mem_cons_of_mem _ hs))]
          exact upd_ne _ _ _ _ hxs
        refine ⟨?_, key.2.2.2.2⟩
        rw [key.2.2.2.1]
        show upd st.bookings b _ = upd st.bookings b _
        rw [List.append_assoc]
        rfl

theorem cmhLoop_denied_seat (now : Nat) (u b : String) (ea : Nat)
    (seatId : String) (e : HoldEntry) :
    ∀ (seats : List SeatSpec) (st : RedisState) (i : Nat) (locked : List String),
      st.holds seatId = some e → seatId ∉ locked →
      seatId ∈ seats.map SeatSpec.seatId →
      (cmhLoop now (fun _ => false) u b ea st i locked seats).1 = .ok false ∧
      (cmhLoop now (fun _ => false) u b ea st i locked seats).2.holds seatId =
        some e := by
  intro seats
  induction seats with
  | nil =>
    intro st i locked _ _ hmem
    cases hmem
  | cons seat rest ih =>
    intro st i locked he hnl hmem
    cases hhold : st.holds seat.seatId with
    | some e2 =>
      rw [cmhLoop_cons_denied now (fun _ => false) u b ea st i locked seat rest
        e2 rfl hhold]
      have spec := cmhRollback_spec st locked b
      refine ⟨rfl, ?_⟩
      rw [congrFun spec.1 seatId]
      simp [hnl, he]
    | none =>
      have hne : seatId ≠ seat.seatId := by
        intro hx
        rw [hx, hhold] at he
        exact Option.noConfusion he
      rw [cmhLoop_cons_acquired now (fun _ => false) u b ea st i locked seat rest
        rfl hhold]
      have hmem2 : seatId ∈ rest.map SeatSpec.seatId := by
        rcases List.mem_cons.mp hmem with h | h
        · exact absurd h hne
        · exact h
      refine ih _ (i + 1) (locked ++ [seat.seatId]) ?_ ?_ hmem2
      · show upd st.holds seat.seatId _ seatId = some e
        rw [upd_ne _ _ _ _ hne]
        exact he
      · simp [hnl, hne]

/-- C1: `createMultipleHolds(seats, userId, bookingId)` is all-or-nothing: on
any failure (per-seat contention returning false, or a store error that is
rethrown) every hold acquired earlier in the call is deleted and the
booking-index key is deleted before the call ends, leaving every hold key as
it was before the call; on full success every seat in the list holds a live
hold carrying the same bookingId, and one booking-index entry maps bookingId
to the complete acquired seat-id list with the same ttl as the holds. -/
theorem createMultipleHolds_all_or_nothing (st : RedisState) (now : Nat)
    (faults : Nat → Bool) (seats : List SeatSpec) (userId bookingId : String) :
    ((createMultipleHolds st now faults seats userId bookingId).1 ≠ .ok true →
      (createMultipleHolds st now faults seats userId bookingId).2.holds =
        st.holds ∧
      (createMultipleHolds st now faults seats userId bookingId).2.bookings =
        upd st.bookings bookingId none ∧
      (createMultipleHolds st now faults seats userId bookingId).2.status =
        st.status ∧
      (createMultipleHolds st now faults seats userId bookingId).2.geo =
        st.geo) ∧
    ((createMultipleHolds st now faults seats userId bookingId).1 = .ok true →
      (∀ s ∈ seats,
        (createMultipleHolds st now faults seats userId bookingId).2.holds
            s.seatId =
          some ⟨.obj ⟨userId, bookingId, s.sectionId,
                  now + HOLD_TTL_SECONDS * 1000⟩, some HOLD_TTL_SECONDS⟩ ∧
        liveHold (createMultipleHolds st now faults seats userId bookingId).2
          now s.seatId = true) ∧
      (createMultipleHolds st now faults seats userId bookingId).2.bookings
          bookingId =
        some ⟨.list (seats.map SeatSpec.seatId), some HOLD_TTL_SECONDS⟩) := by
  constructor
  · intro hfail
    have key := cmhLoop_fail now faults userId bookingId
      (now + HOLD_TTL_SECONDS * 1000) seats st 0 [] hfail
    refine ⟨?_, key.2.1, key.2.2.1, key.2.2.2⟩
    show (cmhLoop now faults userId bookingId (now + HOLD_TTL_SECONDS * 1000)
      st 0 [] seats).2.holds = st.holds
    rw [key.1]
    funext x
    simp
  · intro hok
    have key := cmhLoop_success now faults userId bookingId
      (now + HOLD_TTL_SECONDS * 1000) seats st 0 [] hok
    constructor
    · intro s hs
      have hentry := key.2.1 s hs
      refine ⟨hentry, ?_⟩
      show liveHold (cmhLoop now faults userId bookingId _ st 0 [] seats).2
        now s.seatId = true
      rw [liveHold, hentry]
      simp only [HoldPayload.isLiveAt, Hold.expiredAt]
      simp only [Bool.not_eq_true']
      apply Bool.and_eq_false_iff.mpr
      right
      simp
    · have hb := key.2.2.2.1
      show (cmhLoop now faults userId bookingId _ st 0 [] seats).2.bookings
        bookingId = _
      rw [hb]
      rw [upd_self]
      simp

/-- C1 witness: a two-seat call on an empty store succeeds and writes the
booking index with both seat ids. -/
theorem createMultipleHolds_all_or_nothing_witness :
    (createMultipleHolds ⟨fun _ => none, fun _ => none, fun _ => none,
        fun _ => none⟩ 0 (fun _ => false)
        [⟨"A1", "s1"⟩, ⟨"A2", "s1"⟩] "u1" "bk9").1 = CMHResult.ok true ∧
    (createMultipleHolds ⟨fun _ => none, fun _ => none, fun _ => none,
        fun _ => none⟩ 0 (fun _ => false)
        [⟨"A1", "s1"⟩, ⟨"A2", "s1"⟩] "u1" "bk9").2.bookings "bk9" =
      some ⟨.list ["A1", "A2"], some HOLD_TTL_SECONDS⟩ :=
  ⟨by decide,
   ((createMultipleHolds_all_or_nothing ⟨fun _ => none, fun _ => none,
      fun _ => none, fun _ => none⟩ 0 (fun _ => false)
      [⟨"A1", "s1"⟩, ⟨"A2", "s1"⟩] "u1" "bk9").2 (by decide)).2⟩

/-- C10: the rollback of a failed `createMultipleHolds` call unconditionally
deletes the `booking:` key of the given bookingId, so a pre-existing
booking-index entry stored under that bookingId is erased by the failed
call. -/
theorem createMultipleHolds_rollback_erases_booking_index (st : RedisState)
    (now : Nat) (faults : Nat → Bool) (seats : List SeatSpec)
    (userId bookingId : String) (v : BookingEntry)
    (hpre : st.bookings bookingId = some v)
    (hfail :
      (createMultipleHolds st now faults seats userId bookingId).1 ≠ .ok true) :
    (createMultipleHolds st now faults seats userId bookingId).2.bookings
      bookingId = none := by
  have key := cmhLoop_fail now faults userId bookingId
    (now + HOLD_TTL_SECONDS * 1000) seats st 0 [] hfail
  show (cmhLoop now faults userId bookingId _ st 0 [] seats).2.bookings
    bookingId = none
  rw [key.2.1]
  exact upd_self _ _ _

/-- C10 witness: a store holding `booking:bk9` loses that entry when a
single-seat `createMultipleHolds` call under bookingId bk9 is denied by an
existing hold. -/
theorem createMultipleHolds_rollback_erases_booking_index_witness :
    (createMultipleHolds
        ⟨fun s => if s = "A1" then some ⟨.obj ⟨"u0", "bk0", "s1", 999999⟩,
           some 120⟩ else none,
         fun bId => if bId = "bk9" then some ⟨.legacy "A1", some 120⟩ else none,
         fun _ => none, fun _ => none⟩
        0 (fun _ => false) [⟨"A1", "s1"⟩] "u1" "bk9").1 ≠ CMHResult.ok true ∧
    (createMultipleHolds
        ⟨fun s => if s = "A1" then some ⟨.obj ⟨"u0", "bk0", "s1", 999999⟩,
           some 120⟩ else none,
         fun bId => if bId = "bk9" then some ⟨.legacy "A1", some 120⟩ else none,
         fun _ => none, fun _ => none⟩
        0 (fun _ => false) [⟨"A1", "s1"⟩] "u1" "bk9").2.bookings "bk9" =
      none :=
  ⟨by decide,
   createMultipleHolds_rollback_erases_booking_index
     ⟨fun s => if s = "A1" then some ⟨.obj ⟨"u0", "bk0", "s1", 999999⟩,
        some 120⟩ else none,
      fun bId => if bId = "bk9" then some ⟨.legacy "A1", some 120⟩ else none,
      fun _ => none, fun _ => none⟩
     0 (fun _ => false) [⟨"A1", "s1"⟩] "u1" "bk9" ⟨.legacy "A1", some 120⟩
     (by decide) (by decide)⟩

/-- C2: while a live hold for a seat exists, `createHold` on that seat returns
false — not an error — and changes nothing; a per-seat attempt on that seat
inside a fault-free `createMultipleHolds` call makes the call return false and
leaves the existing hold entry unchanged; and of two sequential competing
`createHold` calls for one seat, the second always returns false once the
first returned true. -/
theorem createHold_single_live_holder (st : RedisState) (now : Nat)
    (seatId userId bookingId sectionId : String)
    (hlive : liveHold st now seatId = true) :
    (createHold st now seatId userId bookingId sectionId).1 = false ∧
    (createHold st now seatId userId bookingId sectionId).2 = st ∧
    (∀ (seats : List SeatSpec) (u b : String),
      seatId ∈ seats.map SeatSpec.seatId →
      (createMultipleHolds st now (fun _ => false) seats u b).1 = .ok false ∧
      (createMultipleHolds st now (fun _ => false) seats u b).2.holds seatId =
        st.holds seatId) ∧
    (∀ (st0 : RedisState) (u1 b1 s1 u2 b2 s2 : String),
      (createHold st0 now seatId u1 b1 s1).1 = true →
      (createHold (createHold st0 now seatId u1 b1 s1).2 now seatId
        u2 b2 s2).1 = false) := by
  have hsome : ∃ e, st.holds seatId = some e := by
    rw [liveHold] at hlive
    cases h : st.holds seatId with
    | some e => exact ⟨e, rfl⟩
    | none => rw [h] at hlive; cases hlive
  obtain ⟨e, he⟩ := hsome
  refine ⟨?_, ?_, ?_, ?_⟩
  · simp [createHold, he]
  · simp [createHold, he]
  · intro seats u b hmem
    have key := cmhLoop_denied_seat now u b (now + HOLD_TTL_SECONDS * 1000)
      seatId e seats st 0 [] he (by simp) hmem
    rw [he]
    exact key
  · intro st0 u1 b1 s1 u2 b2 s2 hfirst
    cases h0 : st0.holds seatId with
    | some e0 => simp [createHold, h0] at hfirst
    | none =>
      simp only [createHold, h0]
      show (match upd st0.holds seatId _ seatId with
        | some _ => _
        | none => _ : Bool × RedisState).1 = false
      rw [upd_self]

/-- C2 witness: with a live hold on seat A1 a competing `createHold` returns
false. -/
theorem createHold_single_live_holder_witness :
    liveHold ⟨fun s => if s = "A1" then some ⟨.obj ⟨"u1", "bk1", "s1", 999999⟩,
        some 120⟩ else none,
      fun _ => none, fun _ => none, fun _ => none⟩ 0 "A1" = true ∧
    (createHold ⟨fun s => if s = "A1" then some ⟨.obj ⟨"u1", "bk1", "s1",
        999999⟩, some 120⟩ else none,
      fun _ => none, fun _ => none, fun _ => none⟩ 0 "A1" "u2" "bk2" "s2").1 =
      false :=
  ⟨by decide,
   (createHold_single_live_holder ⟨fun s => if s = "A1" then
      some ⟨.obj ⟨"u1", "bk1", "s1", 999999⟩, some 120⟩ else none,
      fun _ => none, fun _ => none, fun _ => none⟩ 0 "A1" "u2" "bk2" "s2"
      (by decide)).1⟩

/-- C7: `setSeatBooked(seatId)` writes the permanent BOOKED marker, after
which `getRedisSeatStatus(seatId)` reports BOOKED — in every store state,
hence in particular while a live hold for the seat still exists — and it
leaves every hold entry, every booking entry, every geo entry, and the status
of every other seat unchanged. -/
theorem setSeatBooked_overrides_and_frames (st : RedisState) (now : Nat)
    (seatId : String) :
    (setSeatBooked st seatId).status = upd st.status seatId (some "BOOKED") ∧
    (getRedisSeatStatus (setSeatBooked st seatId) now seatId).1 =
      some "BOOKED" ∧
    (setSeatBooked st seatId).holds = st.holds ∧
    (setSeatBooked st seatId).bookings = st.bookings ∧
    (setSeatBooked st seatId).geo = st.geo := by
  refine ⟨rfl, ?_, rfl, rfl, rfl⟩
  simp [getRedisSeatStatus, setSeatBooked, upd]

/-- C4 counterexample: on an expired-but-present hold record, `releaseHold`
returns false yet mutates the store — the read path deletes the expired
record — contradicting the claim that every false return leaves the state
unchanged. -/
theorem releaseHold_expired_hold_mutates :
    (releaseHold ⟨fun s => if s = "A1" then
        some ⟨.obj ⟨"u1", "bk1", "s1", 5⟩, some 120⟩ else none,
      fun _ => none, fun _ => none, fun _ => none⟩ 10 "A1" "u1").1 = false ∧
    (releaseHold ⟨fun s => if s = "A1" then
        some ⟨.obj ⟨"u1", "bk1", "s1", 5⟩, some 120⟩ else none,
      fun _ => none, fun _ => none, fun _ => none⟩ 10 "A1" "u1").2.holds "A1" ≠
    (⟨fun s => if s = "A1" then
        some ⟨.obj ⟨"u1", "bk1", "s1", 5⟩, some 120⟩ else none,
      fun _ => none, fun _ => none, fun _ => none⟩ : RedisState).holds "A1" := by
  decide

/-- C4 (amended): `releaseHold(seatId, userId)` returns true iff a live hold
record exists for seatId with matching userId, and then deletes that hold and
the booking-index entry named by the hold; every other case returns false,
with no state change except that an expired-but-present hold record is
deleted by the defensive read. -/
theorem releaseHold_ownership (st : RedisState) (now : Nat)
    (seatId userId : String) :
    (∀ (h : Hold) (t : Option Nat),
      st.holds seatId = some ⟨.obj h, t⟩ → h.expiredAt now = false →
      h.userId = userId →
      releaseHold st now seatId userId =
        (true, { st with holds := upd st.holds seatId none,
                         bookings := upd st.bookings h.bookingId none })) ∧
    ((releaseHold st now seatId userId).1 = true →
      ∃ (h : Hold) (t : Option Nat),
        st.holds seatId = some ⟨.obj h, t⟩ ∧ h.expiredAt now = false ∧
        h.userId = userId) ∧
    ((releaseHold st now seatId userId).1 = false →
      (releaseHold st now seatId userId).2 = st ∨
      ∃ (h : Hold) (t : Option Nat),
        st.holds seatId = some ⟨.obj h, t⟩ ∧ h.expiredAt now = true ∧
        (releaseHold st now seatId userId).2 =
          { st with holds := upd st.holds seatId none }) := by
  cases hh : st.holds seatId with
  | none =>
    refine ⟨?_, ?_, ?_⟩
    · intro h t heq
      exact absurd heq (by simp)
    · intro htrue
      simp [releaseHold, getHold, hh] at htrue
    · intro _
      left
      simp [releaseHold, getHold, hh]
  | some e =>
    obtain ⟨p, t0⟩ := e
    cases p with
    | corrupt b =>
      refine ⟨?_, ?_, ?_⟩
      · intro h t heq
        simp at heq
      · intro htrue
        simp [releaseHold, getHold, hh] at htrue
      · intro _
        left
        simp [releaseHold, getHold, hh]
    | junk tr =>
      refine ⟨?_, ?_, ?_⟩
      · intro h t heq
        simp at heq
      · intro htrue
        simp [releaseHold, getHold, hh] at htrue
      · intro _
        left
        simp [releaseHold, getHold, hh]
    | obj h0 =>
      cases hexp : h0.expiredAt now with
      | true =>
        refine ⟨?_, ?_, ?_⟩
        · intro h t heq hlive _
          simp at heq
          rw [← heq.1] at hlive
          rw [hexp] at hlive
          exact Bool.noConfusion hlive
        · intro htrue
          simp [releaseHold, getHold, hh, hexp] at htrue
        · intro _
          right
          refine ⟨h0, t0, rfl, hexp, ?_⟩
          simp [releaseHold, getHold, hh, hexp]
      | false =>
        by_cases huser : h0.userId = userId
        · refine ⟨?_, ?_, ?_⟩
          · intro h t heq _ _
            simp at heq
            rw [← heq.1]
            simp [releaseHold, getHold, hh, hexp, huser]
          · intro _
            exact ⟨h0, t0, rfl, hexp, huser⟩
          · intro hfalse
            simp [releaseHold, getHold, hh, hexp, huser] at hfalse
        · refine ⟨?_, ?_, ?_⟩
          · intro h t heq _ hu
            simp at heq
            rw [← heq.1] at hu
            exact absurd hu huser
          · intro htrue
            simp [releaseHold, getHold, hh, hexp, huser] at htrue
          · intro _
            left
            simp [releaseHold, getHold, hh, hexp, huser]

/-- C4 witness: the owner of a live hold releases it and gets true. -/
theorem releaseHold_ownership_witness :
    (releaseHold ⟨fun s => if s = "A1" then
        some ⟨.obj ⟨"u1", "bk1", "s1", 999999⟩, some 120⟩ else none,
      fun b => if b = "bk1" then some ⟨.legacy "A1", some 120⟩ else none,
      fun _ => none, fun _ => none⟩ 0 "A1" "u1").1 = true :=
  congrArg Prod.fst
    ((releaseHold_ownership ⟨fun s => if s = "A1" then
        some ⟨.obj ⟨"u1", "bk1", "s1", 999999⟩, some 120⟩ else none,
      fun b => if b = "bk1" then some ⟨.legacy "A1", some 120⟩ else none,
      fun _ => none, fun _ => none⟩ 0 "A1" "u1").1
      ⟨"u1", "bk1", "s1", 999999⟩ (some 120) (by decide) (by decide) rfl)

/-- C6 counterexample: a stored payload that parses as JSON but is not a hold
object (e.g. the raw string is a JSON array) is not decodable as a Hold, yet
`getHold` returns it as-is rather than null. -/
theorem getHold_junk_payload_not_null :
    (getHold ⟨fun s => if s = "A1" then some ⟨.junk true, some 120⟩ else none,
        fun _ => none, fun _ => none, fun _ => none⟩ 10 "A1").1 =
      GetHoldResult.junkVal true ∧
    (getHold ⟨fun s => if s = "A1" then some ⟨.junk true, some 120⟩ else none,
        fun _ => none, fun _ => none, fun _ => none⟩ 10 "A1").1 ≠
      GetHoldResult.nullv := by
  decide

/-- C6 (amended): `getHold(seatId)` returns null when no record is stored;
when the stored record is a hold object whose nonzero `expiresAt` is already
in the past it deletes the record and returns null (a zero `expiresAt` is
JavaScript-falsy and skips the check); when the stored payload fails JSON
parsing it returns null without raising; a payload that parses as JSON but is
not a hold object is returned as-is; otherwise the stored hold is returned. -/
theorem getHold_read_behavior (st : RedisState) (now : Nat) (seatId : String) :
    (st.holds seatId = none → getHold st now seatId = (.nullv, st)) ∧
    (∀ (b : Bool) (t : Option Nat),
      st.holds seatId = some ⟨.corrupt b, t⟩ →
      getHold st now seatId = (.nullv, st)) ∧
    (∀ (tr : Bool) (t : Option Nat),
      st.holds seatId = some ⟨.junk tr, t⟩ →
      getHold st now seatId = (.junkVal tr, st)) ∧
    (∀ (h : Hold) (t : Option Nat),
      st.holds seatId = some ⟨.obj h, t⟩ →
      h.expiresAt ≠ 0 → h.expiresAt < now →
      getHold st now seatId =
        (.nullv, { st with holds := upd st.holds seatId none })) ∧
    (∀ (h : Hold) (t : Option Nat),
      st.holds seatId = some ⟨.obj h, t⟩ →
      (h.expiresAt = 0 ∨ ¬ h.expiresAt < now) →
      getHold st now seatId = (.hold h, st)) := by
  refine ⟨?_, ?_, ?_, ?_, ?_⟩
  · intro hh
    simp [getHold, hh]
  · intro b t hh
    simp [getHold, hh]
  · intro tr t hh
    simp [getHold, hh]
  · intro h t hh hne hlt
    have hexp : h.expiredAt now = true := by
      simp [Hold.expiredAt, hne, hlt]
    simp [getHold, hh, hexp]
  · intro h t hh hor
    have hexp : h.expiredAt now = false := by
      rcases hor with h0 | hnlt
      · simp [Hold.expiredAt, h0]
      · simp [Hold.expiredAt, hnlt]
    simp [getHold, hh, hexp]

theorem lookup_mapSet_self (m : List (String × String)) (k v : String) :
    lookupStatus (mapSet m k v) k = some v := by
  induction m with
  | nil => simp [mapSet, lookupStatus]
  | cons p rest ih =>
    by_cases hp : p.1 = k
    · simp [mapSet, hp, lookupStatus]
    · simp only [mapSet, if_neg hp]
      simp only [lookupStatus] at ih ⊢
      rw [List.find?_cons_of_neg]
      · exact ih
      · simp [hp]

theorem lookup_mapSet_ne (m : List (String × String)) (k v x : String)
    (hx : x ≠ k) : lookupStatus (mapSet m k v) x = lookupStatus m x := by
  induction m with
  | nil =>
    simp [mapSet, lookupStatus, List.find?_cons_of_neg, Ne.symm hx]
  | cons p rest ih =>
    by_cases hp : p.1 = k
    · simp only [mapSet, if_pos hp]
      simp only [lookupStatus]
      rw [List.find?_cons_of_neg, List.find?_cons_of_neg]
      · simp [hp, Ne.symm hx]
      · simp [Ne.symm hx]
    · simp only [mapSet, if_neg hp]
      by_cases hpx : p.1 = x
      · simp only [lookupStatus]
        rw [List.find?_cons_of_pos, List.find?_cons_of_pos] <;> simp [hpx]
      · simp only [lookupStatus] at ih ⊢
        rw [List.find?_cons_of_neg, List.find?_cons_of_neg]
        · exact ih
        · simp [hpx]
        · simp [hpx]

theorem lookup_statuses_fold (st : RedisState) :
    ∀ (ids : List String) (acc : List (String × String)) (x : String),
      lookupStatus (ids.foldl (fun a id =>
        match batchStatus st id with
        | some s => mapSet a id s
        | none => a) acc) x =
      if x ∈ ids then
        (match batchStatus st x with
         | some s => some s
         | none => lookupStatus acc x)
      else lookupStatus acc x := by
  intro ids
  induction ids with
  | nil =>
    intro acc x
    simp
  | cons j rest ih =>
    intro acc x
    rw [List.foldl_cons, ih]
    by_cases hjx : j = x
    · subst hjx
      cases hb : batchStatus st j with
      | some s =>
        simp only [hb, List.mem_cons, true_or, if_true]
        by_cases hmem : j ∈ rest
        · simp [hmem]
        · simp [hmem, lookup_mapSet_self]
      | none =>
        simp only [hb]
        by_cases hmem : j ∈ rest
        · simp [hmem]
        · simp [hmem]
    · have hxj : x ≠ j := fun h => hjx h.symm
      cases hb : batchStatus st j with
      | some s =>
        simp only [hb]
        by_cases hmem : x ∈ rest
        · cases hbx : batchStatus st x with
          | some s2 => simp [hmem, hbx, hjx]
          | none => simp [hmem, hbx, hjx, lookup_mapSet_ne _ _ _ _ hxj]
        · have hnc : x ∉ j :: rest := by simp [hxj, hmem]
          simp [hmem, hnc, lookup_mapSet_ne _ _ _ _ hxj]
      | none =>
        simp only [hb]
        by_cases hmem : x ∈ rest
        · simp [hmem]
        · have hnc : x ∉ j :: rest := by simp [hxj, hmem]
          simp [hmem, hnc]

theorem batch_eq_resolve (st : RedisState) (now : Nat) (id : String)
    (hid : st.holds id = none ∨ liveHold st now id = true ∨
      st.status id = some "BOOKED") :
    batchStatus st id = (getRedisSeatStatus st now id).1 ∧
    (getRedisSeatStatus st now id).2 = st := by
  by_cases hbk : st.status id = some "BOOKED"
  · constructor <;> simp [batchStatus, getRedisSeatStatus, hbk]
  · rcases hid with h | h | h
    · constructor <;>
        simp [batchStatus, getRedisSeatStatus, getHold, hbk, h]
    · rw [liveHold] at h
      cases hh : st.holds id with
      | none => rw [hh] at h; cases h
      | some e =>
        rw [hh] at h
        obtain ⟨p, t0⟩ := e
        cases p with
        | obj h0 =>
          simp only [HoldPayload.isLiveAt, Bool.not_eq_true'] at h
          constructor <;>
            simp [batchStatus, getRedisSeatStatus, getHold, hbk, hh, h,
              HoldPayload.rawTruthy]
        | corrupt b => simp [HoldPayload.isLiveAt] at h
        | junk tr => simp [HoldPayload.isLiveAt] at h
    · exact absurd h hbk

/-- C3 counterexample: on a seat whose hold record is expired but still
present, the batched `getAllSeatStatuses` reports HOLD while the per-id
`getRedisSeatStatus` resolves null, so the batched result is not the per-id
mapping. -/
theorem getAllSeatStatuses_expired_differs :
    lookupStatus (getAllSeatStatuses
      ⟨fun s => if s = "A1" then some ⟨.obj ⟨"u1", "bk1", "s1", 5⟩, some 120⟩
         else none,
       fun _ => none, fun _ => none, fun _ => none⟩ ["A1"]) "A1" =
      some "HOLD" ∧
    (getRedisSeatStatus
      ⟨fun s => if s = "A1" then some ⟨.obj ⟨"u1", "bk1", "s1", 5⟩, some 120⟩
         else none,
       fun _ => none, fun _ => none, fun _ => none⟩ 10 "A1").1 = none := by
  decide

/-- C3 (amended): `getAllSeatStatuses` performs its two batched reads and,
for every requested id whose hold key is absent, holds a live well-formed
hold, or whose seat is booked, returns exactly the `getRedisSeatStatus`
result for that id, with ids resolving to null omitted and unrequested ids
absent; on such inputs the per-id read also leaves the store unchanged. On an
expired-but-present or malformed hold record the two reads may differ (the
batch reports HOLD from the raw value; the per-id read yields null). -/
theorem getAllSeatStatuses_matches_resolveOne (st : RedisState) (now : Nat)
    (ids : List String)
    (hclean : ∀ id ∈ ids, st.holds id = none ∨ liveHold st now id = true ∨
      st.status id = some "BOOKED") :
    (∀ id ∈ ids, lookupStatus (getAllSeatStatuses st ids) id =
      (getRedisSeatStatus st now id).1 ∧
      (getRedisSeatStatus st now id).2 = st) ∧
    (∀ x, x ∉ ids → lookupStatus (getAllSeatStatuses st ids) x = none) := by
  constructor
  · intro id hid
    have hb := batch_eq_resolve st now id (hclean id hid)
    refine ⟨?_, hb.2⟩
    rw [← hb.1]
    show lookupStatus (ids.foldl _ []) id = batchStatus st id
    rw [lookup_statuses_fold st ids [] id]
    cases hx : batchStatus st id with
    | some s => simp [hid, hx]
    | none => simp [hid, hx, lookupStatus]
  · intro x hx
    show lookupStatus (ids.foldl _ []) x = none
    rw [lookup_statuses_fold st ids [] x]
    simp [hx, lookupStatus]

/-- C3 witness: a booked seat, a live-held seat and an absent seat agree
between the batched and the per-id reads. -/
theorem getAllSeatStatuses_matches_resolveOne_witness :
    lookupStatus (getAllSeatStatuses
      ⟨fun s => if s = "A1" then some ⟨.obj ⟨"u1", "bk1", "s1", 999999⟩,
         some 120⟩ else none,
       fun _ => none,
       fun s => if s = "B1" then some "BOOKED" else none,
       fun _ => none⟩ ["A1", "B1", "C1"]) "A1" =
    (getRedisSeatStatus
      ⟨fun s => if s = "A1" then some ⟨.obj ⟨"u1", "bk1", "s1", 999999⟩,
         some 120⟩ else none,
       fun _ => none,
       fun s => if s = "B1" then some "BOOKED" else none,
       fun _ => none⟩ 0 "A1").1 :=
  (((getAllSeatStatuses_matches_resolveOne
      ⟨fun s => if s = "A1" then some ⟨.obj ⟨"u1", "bk1", "s1", 999999⟩,
         some 120⟩ else none,
       fun _ => none,
       fun s => if s = "B1" then some "BOOKED" else none,
       fun _ => none⟩ 0 ["A1", "B1", "C1"] (by decide)).1 "A1"
    (by decide)).1)

/-- C6 witness: an expired-but-present hold record is deleted and reported as
null. -/
theorem getHold_read_behavior_witness :
    (getHold ⟨fun s => if s = "A1" then
        some ⟨.obj ⟨"u1", "bk1", "s1", 5⟩, some 120⟩ else none,
      fun _ => none, fun _ => none, fun _ => none⟩ 10 "A1").1 =
      GetHoldResult.nullv :=
  congrArg Prod.fst
    ((getHold_read_behavior ⟨fun s => if s = "A1" then
        some ⟨.obj ⟨"u1", "bk1", "s1", 5⟩, some 120⟩ else none,
      fun _ => none, fun _ => none, fun _ => none⟩ 10 "A1").2.2.2.1
      ⟨"u1", "bk1", "s1", 5⟩ (some 120) (by decide) (by decide) (by decide))

theorem liveSeatRecord_eq_of_dead (now : Nat) (st st2 : RedisState)
    (hd : deadPreserved now st st2) (x : String) :
    liveSeatRecord st2 now x = liveSeatRecord st now x := by
  rcases hd x with h | ⟨h1, h2⟩
  · simp only [liveSeatRecord, h]
  · rw [h2]
    simp only [liveSeatRecord, h1]

theorem deadPreserved_refl (now : Nat) (st : RedisState) :
    deadPreserved now st st :=
  fun _ => Or.inl rfl

theorem deadPreserved_trans (now : Nat) (st st2 st3 : RedisState)
    (h12 : deadPreserved now st st2) (h23 : deadPreserved now st2 st3) :
    deadPreserved now st st3 := by
  intro x
  rcases h23 x with h | ⟨h1, h2⟩
  · rcases h12 x with g | ⟨g1, g2⟩
    · exact Or.inl (h.trans g)
    · exact Or.inr ⟨h.trans g1, g2⟩
  · right
    refine ⟨h1, ?_⟩
    rw [← liveSeatRecord_eq_of_dead now st st2 h12 x]
    exact h2

theorem getHold_step (st : RedisState) (now : Nat) (id : String)
    (Hwf : holdsWellFormed st) :
    ((getHold st now id).1 = .nullv ∧ liveSeatRecord st now id = none ∨
      (∃ h, (getHold st now id).1 = .hold h ∧
        liveSeatRecord st now id =
          some ⟨id, some h.userId, some h.sectionId, some h.bookingId⟩)) ∧
    deadPreserved now st (getHold st now id).2 ∧
    holdsWellFormed (getHold st now id).2 := by
  cases hh : st.holds id with
  | none =>
    refine ⟨Or.inl ⟨?_, ?_⟩, ?_, ?_⟩
    · simp [getHold, hh]
    · simp [liveSeatRecord, hh]
    · intro x
      left
      simp [getHold, hh]
    · intro x e hx
      apply Hwf x e
      simpa [getHold, hh] using hx
  | some e0 =>
    obtain ⟨p, t0⟩ := e0
    obtain ⟨h0, hp⟩ := Hwf id ⟨p, t0⟩ hh
    simp only at hp
    subst hp
    cases hexp : h0.expiredAt now with
    | true =>
      have hst : (getHold st now id).2 =
          { st with holds := upd st.holds id none } := by
        simp [getHold, hh, hexp]
      refine ⟨Or.inl ⟨?_, ?_⟩, ?_, ?_⟩
      · simp [getHold, hh, hexp]
      · simp [liveSeatRecord, hh, hexp]
      · intro x
        rw [hst]
        by_cases hx : x = id
        · subst hx
          right
          refine ⟨upd_self _ _ _, ?_⟩
          simp [liveSeatRecord, hh, hexp]
        · left
          exact upd_ne _ _ _ _ hx
      · intro x e hx
        rw [hst] at hx
        by_cases hxi : x = id
        · subst hxi
          have h2 : upd st.holds x none x = some e := hx
          rw [upd_self] at h2
          exact Option.noConfusion h2
        · apply Hwf x e
          have h2 : upd st.holds id none x = some e := hx
          rwa [upd_ne _ _ _ _ hxi] at h2
    | false =>
      refine ⟨Or.inr ⟨h0, ?_, ?_⟩, ?_, ?_⟩
      · simp [getHold, hh, hexp]
      · simp [liveSeatRecord, hh, hexp]
      · intro x
        left
        simp [getHold, hh, hexp]
      · intro x e hx
        apply Hwf x e
        simpa [getHold, hh, hexp] using hx

theorem collectBookingSeats_cons (st : RedisState) (now : Nat) (id : String)
    (rest : List String) :
    collectBookingSeats st now (id :: rest) =
      (match holdSeatRecord id (getHold st now id).1 with
       | some r =>
         (r :: (collectBookingSeats (getHold st now id).2 now rest).1,
          (collectBookingSeats (getHold st now id).2 now rest).2)
       | none => collectBookingSeats (getHold st now id).2 now rest) := rfl

theorem collect_wf (st : RedisState) (now : Nat) (Hwf : holdsWellFormed st) :
    ∀ (ids : List String) (st2 : RedisState),
      deadPreserved now st st2 → holdsWellFormed st2 →
      (collectBookingSeats st2 now ids).1 =
        ids.filterMap (liveSeatRecord st now) ∧
      deadPreserved now st (collectBookingSeats st2 now ids).2 ∧
      holdsWellFormed (collectBookingSeats st2 now ids).2 := by
  intro ids
  induction ids with
  | nil =>
    intro st2 hd hw
    exact ⟨rfl, hd, hw⟩
  | cons id rest ih =>
    intro st2 hd hw
    have step := getHold_step st2 now id hw
    have hdead2 : deadPreserved now st (getHold st2 now id).2 :=
      deadPreserved_trans now st st2 _ hd step.2.1
    have key := ih (getHold st2 now id).2 hdead2 step.2.2
    have htr := liveSeatRecord_eq_of_dead now st st2 hd id
    rw [collectBookingSeats_cons]
    rcases step.1 with ⟨hn, hr⟩ | ⟨h, hh1, hr⟩
    · rw [hn]
      have hrec : liveSeatRecord st now id = none := by rw [← htr]; exact hr
      simp only [holdSeatRecord]
      refine ⟨?_, key.2.1, key.2.2⟩
      rw [key.1, List.filterMap_cons, hrec]
    · rw [hh1]
      have hrec : liveSeatRecord st now id =
          some ⟨id, some h.userId, some h.sectionId, some h.bookingId⟩ := by
        rw [← htr]; exact hr
      simp only [holdSeatRecord]
      refine ⟨?_, key.2.1, key.2.2⟩
      rw [key.1, List.filterMap_cons, hrec]

/-- C5: `getHoldByBookingId(bookingId)` decodes both booking-index encodings
(legacy single seat id and current seat-id list), resolves each referenced
seat id against its live hold, drops seat ids whose hold has vanished or
expired, returns null when no live seat remains, a flat single-seat record
when exactly one remains, and a booking-grouped record listing all live seats
when more than one remains — over stores whose hold payloads are the
well-formed records this module writes. -/
theorem getHoldByBookingId_shape (st : RedisState) (now : Nat)
    (bookingId : String) (Hwf : holdsWellFormed st) :
    (st.bookings bookingId = none →
      getHoldByBookingId st now bookingId = (.nullv, st)) ∧
    (∀ e, st.bookings bookingId = some e →
      (e.payload = .legacy "" →
        (getHoldByBookingId st now bookingId).1 = .nullv) ∧
      (e.payload ≠ .legacy "" →
        ((decodeBookingRefs e.payload).filterMap (liveSeatRecord st now) = [] →
          (getHoldByBookingId st now bookingId).1 = .nullv) ∧
        (∀ r,
          (decodeBookingRefs e.payload).filterMap (liveSeatRecord st now) =
            [r] →
          (getHoldByBookingId st now bookingId).1 = .single r) ∧
        (∀ r1 r2 rs,
          (decodeBookingRefs e.payload).filterMap (liveSeatRecord st now) =
            r1 :: r2 :: rs →
          (getHoldByBookingId st now bookingId).1 =
            .grouped bookingId r1.userId (r1 :: r2 :: rs)))) := by
  constructor
  · intro hb
    simp [getHoldByBookingId, hb]
  · intro e hb
    obtain ⟨p, t0⟩ := e
    cases p with
    | legacy s =>
      by_cases hs : s = ""
      · subst hs
        refine ⟨fun _ => ?_, fun hne => absurd rfl hne⟩
        simp [getHoldByBookingId, hb]
      · refine ⟨fun hleg => ?_, fun _ => ?_⟩
        · exact absurd hleg (by simp [hs])
        · have step := getHold_step st now s Hwf
          refine ⟨?_, ?_, ?_⟩
          · intro hemp
            rcases step.1 with ⟨hn, _⟩ | ⟨h, hh1, hr⟩
            · simp [getHoldByBookingId, hb, hs, hn]
            · rw [show decodeBookingRefs (BookingPayload.legacy s) = [s]
                from rfl, List.filterMap_cons, hr] at hemp
              simp at hemp
          · intro r hone
            rw [show decodeBookingRefs (BookingPayload.legacy s) = [s]
              from rfl, List.filterMap_cons] at hone
            rcases step.1 with ⟨hn, hr⟩ | ⟨h, hh1, hr⟩
            · rw [hr] at hone
              simp at hone
            · rw [hr] at hone
              simp at hone
              rw [← hone]
              simp [getHoldByBookingId, hb, hs, hh1]
          · intro r1 r2 rs hmany
            rw [show decodeBookingRefs (BookingPayload.legacy s) = [s]
              from rfl, List.filterMap_cons] at hmany
            rcases step.1 with ⟨hn, hr⟩ | ⟨h, hh1, hr⟩ <;> rw [hr] at hmany <;>
              simp at hmany
    | list ids =>
      refine ⟨fun hleg => ?_, fun _ => ?_⟩
      · exact absurd hleg (by simp)
      · have key := collect_wf st now Hwf ids st (deadPreserved_refl now st) Hwf
        have hdec : decodeBookingRefs (BookingPayload.list ids) = ids := rfl
        refine ⟨?_, ?_, ?_⟩
        · intro hemp
          rw [hdec] at hemp
          rw [← key.1] at hemp
          simp [getHoldByBookingId, hb, hemp]
        · intro r hone
          rw [hdec] at hone
          rw [← key.1] at hone
          simp [getHoldByBookingId, hb, hone]
        · intro r1 r2 rs hmany
          rw [hdec] at hmany
          rw [← key.1] at hmany
          simp [getHoldByBookingId, hb, hmany]

/-- C5 witness: a two-seat booking resolves to the grouped record listing
both live seats. -/
theorem getHoldByBookingId_shape_witness :
    (getHoldByBookingId
      ⟨fun s => if s = "A1" then
          some ⟨.obj ⟨"u1", "bk9", "s1", 999999⟩, some 120⟩
        else if s = "A2" then
          some ⟨.obj ⟨"u1", "bk9", "s1", 999999⟩, some 120⟩
        else none,
       fun b => if b = "bk9" then some ⟨.list ["A1", "A2"], some 120⟩ else none,
       fun _ => none, fun _ => none⟩ 0 "bk9").1 =
      BookingLookup.grouped "bk9" (some "u1")
        [⟨"A1", some "u1", some "s1", some "bk9"⟩,
         ⟨"A2", some "u1", some "s1", some "bk9"⟩] :=
  (((getHoldByBookingId_shape
      ⟨fun s => if s = "A1" then
          some ⟨.obj ⟨"u1", "bk9", "s1", 999999⟩, some 120⟩
        else if s = "A2" then
          some ⟨.obj ⟨"u1", "bk9", "s1", 999999⟩, some 120⟩
        else none,
       fun b => if b = "bk9" then some ⟨.list ["A1", "A2"], some 120⟩ else none,
       fun _ => none, fun _ => none⟩ 0 "bk9"
      (by
        intro x e h
        revert h
        show (if x = "A1" then
            some ⟨.obj ⟨"u1", "bk9", "s1", 999999⟩, some 120⟩
          else if x = "A2" then
            some ⟨.obj ⟨"u1", "bk9", "s1", 999999⟩, some 120⟩
          else none) = some e → ∃ h, e.payload = HoldPayload.obj h
        split_ifs with h1 h2
        · intro h
          cases h
          exact ⟨_, rfl⟩
        · intro h
          cases h
          exact ⟨_, rfl⟩
        · intro h
          exact absurd h (by simp))).2
      ⟨.list ["A1", "A2"], some 120⟩ (by decide)).2 (by decide)).2.2
    ⟨"A1", some "u1", some "s1", some "bk9"⟩
    ⟨"A2", some "u1", some "s1", some "bk9"⟩ [] (by decide)

/-- C8: `isGeoUnlocked` on a partition key with no stored entry (under the
lower-cased key) fail-opens to `{true, null, 0}`; with a stored unlock time
`t` it reports `isUnlocked = (now >= t)` and
`remainingSeconds = max(0, t - now)` for the current epoch-seconds `now`. -/
theorem isGeoUnlocked_fail_open_and_countdown (st : RedisState) (now : Nat)
    (city : String) :
    (st.geo (lowerStr city) = none →
      isGeoUnlocked st now city = ⟨true, none, 0⟩) ∧
    (∀ t : Int, st.geo (lowerStr city) = some t →
      (isGeoUnlocked st now city).isUnlocked = decide (t ≤ (now : Int)) ∧
      (isGeoUnlocked st now city).remainingSeconds =
        max 0 (t - (now : Int))) := by
  constructor
  · intro hg
    simp [isGeoUnlocked, getGeoUnlockTime, hg]
  · intro t hg
    by_cases ht : t = 0
    · subst ht
      have h0 : (0 : Int) ≤ (now : Int) := Int.ofNat_nonneg now
      constructor
      · simp [isGeoUnlocked, getGeoUnlockTime, hg, h0]
      · simp only [isGeoUnlocked, getGeoUnlockTime, hg]
        show (0 : Int) = max 0 (0 - (now : Int))
        omega
    · constructor
      · simp [isGeoUnlocked, getGeoUnlockTime, hg, ht]
      · simp [isGeoUnlocked, getGeoUnlockTime, hg, ht]

/-- C8 witness: no entry gives the fail-open triple; a stored time of 8 at
now = 5 counts down 3 seconds and reports locked. -/
theorem isGeoUnlocked_fail_open_and_countdown_witness :
    isGeoUnlocked ⟨fun _ => none, fun _ => none, fun _ => none, fun _ => none⟩
      5 "Pune" = ⟨true, none, 0⟩ ∧
    (isGeoUnlocked ⟨fun _ => none, fun _ => none, fun _ => none,
      fun c => if c = "pune" then some 8 else none⟩ 5 "Pune").isUnlocked =
      decide ((8 : Int) ≤ (5 : Int)) ∧
    (isGeoUnlocked ⟨fun _ => none, fun _ => none, fun _ => none,
      fun c => if c = "pune" then some 8 else none⟩ 5 "Pune").remainingSeconds =
      max 0 ((8 : Int) - (5 : Int)) :=
  ⟨(isGeoUnlocked_fail_open_and_countdown
      ⟨fun _ => none, fun _ => none, fun _ => none, fun _ => none⟩ 5 "Pune").1
      (by decide),
   (isGeoUnlocked_fail_open_and_countdown
      ⟨fun _ => none, fun _ => none, fun _ => none,
       fun c => if c = "pune" then some 8 else none⟩ 5 "Pune").2 8 (by decide)⟩

/-- C9 counterexample: a numeric entry whose timestamp is outside the
representable date range is written to the store before the failure naming it
is reported — the bulk update does not validate it before writing, so the
offending entry itself does not remain unwritten. -/
theorem putGeoUnlock_writes_offending_numeric_entry :
    (putGeoUnlock ⟨fun _ => none, fun _ => none, fun _ => none, fun _ => none⟩
      [("pune", UnlockValue.num 8640000000001)]).1 =
      PutOutcome.invalidTime "pune" (.inr 8640000000001) ∧
    (putGeoUnlock ⟨fun _ => none, fun _ => none, fun _ => none, fun _ => none⟩
      [("pune", UnlockValue.num 8640000000001)]).2.geo "pune" =
      some 8640000000001 := by
  decide

theorem putLoop_invalid (city : String) (v : UnlockValue)
    (rest : List (String × UnlockValue)) (hbad : entryWriteOk v = false) :
    ∀ (pre : List (String × UnlockValue)) (st : RedisState)
      (acc : List (String × Int)),
      (∀ p ∈ pre, entryWriteOk p.2 = true) →
      putLoop st acc (pre ++ (city, v) :: rest) =
        ((.invalidTime city v.rawDescr : PutOutcome),
         (match entryConverts v with
          | none => applyPutEntries st pre
          | some ts =>
            { applyPutEntries st pre with
                geo := (upd (applyPutEntries st pre).geo (lowerStr city)
                  (some ts)) })) := by
  intro pre
  induction pre with
  | nil =>
    intro st acc _
    cases v with
    | iso raw ms =>
      cases ms with
      | none => rfl
      | some m =>
        have hrange : isoInRange (Int.fdiv m 1000 * 1000) = false := hbad
        simp only [List.nil_append, putLoop, setGeoUnlockTime, hrange,
          Bool.false_eq_true, if_false]
        rfl
    | num n =>
      have hrange : isoInRange (n * 1000) = false := hbad
      simp only [List.nil_append, putLoop, setGeoUnlockTime, hrange,
        Bool.false_eq_true, if_false]
      rfl
  | cons p0 pre2 ih =>
    intro st acc hpre
    have hok : entryWriteOk p0.2 = true := hpre p0 (List.mem_cons_self _ _)
    have hpre2 : ∀ p ∈ pre2, entryWriteOk p.2 = true :=
      fun p hp => hpre p (List.mem_cons_of_mem _ hp)
    obtain ⟨c0, v0⟩ := p0
    cases v0 with
    | iso raw ms =>
      cases ms with
      | none => exact absurd hok (by simp [entryWriteOk, entryConverts])
      | some m =>
        have hrange : isoInRange (Int.fdiv m 1000 * 1000) = true := hok
        show putLoop st acc ((c0, UnlockValue.iso raw (some m)) ::
          (pre2 ++ (city, v) :: rest)) = _
        simp only [putLoop, setGeoUnlockTime, hrange, if_true]
        exact ih _ _ hpre2
    | num n =>
      have hrange : isoInRange (n * 1000) = true := hok
      show putLoop st acc ((c0, UnlockValue.num n) ::
        (pre2 ++ (city, v) :: rest)) = _
      simp only [putLoop, setGeoUnlockTime, hrange, if_true]
      exact ih _ _ hpre2

/-- C9 (amended): the bulk geo-unlock update processes entries in order; a
string entry is validated before any write and, when unparseable, stops the
call naming its partition key and raw value with nothing of it written; a
numeric entry is written without prior validation, and when its timestamp is
outside the representable date range the same failure is reported only after
that entry has been written; in either case no later entry is processed and
entries written earlier in the call remain in place. -/
theorem putGeoUnlock_stops_at_first_invalid (st : RedisState)
    (pre : List (String × UnlockValue)) (city : String) (v : UnlockValue)
    (rest : List (String × UnlockValue))
    (hpre : ∀ p ∈ pre, entryWriteOk p.2 = true)
    (hbad : entryWriteOk v = false) :
    (putGeoUnlock st (pre ++ (city, v) :: rest)).1 =
      .invalidTime city v.rawDescr ∧
    (putGeoUnlock st (pre ++ (city, v) :: rest)).2 =
      (match entryConverts v with
       | none => applyPutEntries st pre
       | some ts =>
         { applyPutEntries st pre with
             geo := (upd (applyPutEntries st pre).geo (lowerStr city)
               (some ts)) }) := by
  have key := putLoop_invalid city v rest hbad pre st [] hpre
  constructor
  · show (putLoop st [] (pre ++ (city, v) :: rest)).1 = _
    rw [key]
  · show (putLoop st [] (pre ++ (city, v) :: rest)).2 = _
    rw [key]

/-- C9 witness: a three-entry bulk update whose second entry is an
unparseable string fails naming that entry, keeps the first write, and never
touches the third. -/
theorem putGeoUnlock_stops_at_first_invalid_witness :
    (putGeoUnlock ⟨fun _ => none, fun _ => none, fun _ => none, fun _ => none⟩
      ([("mumbai", UnlockValue.num 5)] ++
        ("delhi", UnlockValue.iso "not-a-date" none) ::
        [("pune", UnlockValue.num 7)])).1 =
      PutOutcome.invalidTime "delhi" (.inl "not-a-date") ∧
    (putGeoUnlock ⟨fun _ => none, fun _ => none, fun _ => none, fun _ => none⟩
      ([("mumbai", UnlockValue.num 5)] ++
        ("delhi", UnlockValue.iso "not-a-date" none) ::
        [("pune", UnlockValue.num 7)])).2.geo "mumbai" = some 5 ∧
    (putGeoUnlock ⟨fun _ => none, fun _ => none, fun _ => none, fun _ => none⟩
      ([("mumbai", UnlockValue.num 5)] ++
        ("delhi", UnlockValue.iso "not-a-date" none) ::
        [("pune", UnlockValue.num 7)])).2.geo "pune" = none :=
  ⟨(putGeoUnlock_stops_at_first_invalid
      ⟨fun _ => none, fun _ => none, fun _ => none, fun _ => none⟩
      [("mumbai", UnlockValue.num 5)] "delhi"
      (UnlockValue.iso "not-a-date" none) [("pune", UnlockValue.num 7)]
      (by decide) (by decide)).1,
   by decide, by decide⟩

end HackWinter
